import Mathlib

/-!
# The save-game watcher of the Stardew Rocks client

A model of `client/watch_saved_games.go`: the start-up of `watchAndPublish`
(lines 51-77), the body of its event loop (lines 95-139) and `randSleep`
(lines 175-178).

The operating system, the fsnotify watcher and the two publish functions are
outside the file.  Their answers are inputs of the model (`Env`, `FileSystem`),
their invocations are recorded in a list of `Call`s, and `log.Fatal` is the
`fatal` flag of a `Step`.
-/

namespace StardewRocks

/-! ## Library primitives -/

/-- Bit `Create` of fsnotify.Op, a uint32 bit set (`1 << iota`). -/
def Create : Nat := 1

/-- Bit `Write` of fsnotify.Op. -/
def Write : Nat := 2

/-- Bit `Remove` of fsnotify.Op. -/
def Remove : Nat := 4

/-- Bit `Rename` of fsnotify.Op. -/
def Rename : Nat := 8

/-- Bit `Chmod` of fsnotify.Op. -/
def Chmod : Nat := 16

/-- An fsnotify.Event: the path and the set of operations on it. -/
structure Event where
  Name : String
  Op : Nat

/-- Whether the second list is an initial segment of the first. -/
def startsWith : List Char → List Char → Bool
  | _, [] => true
  | [], _ :: _ => false
  | c :: cs, d :: ds => c == d && startsWith cs ds

/-- Whether the second list occurs as a contiguous run inside the first. -/
def containsChars : List Char → List Char → Bool
  | [], sub => startsWith [] sub
  | c :: cs, sub => startsWith (c :: cs) sub || containsChars cs sub

/-- Go strings.Contains. -/
def Contains (s substr : String) : Bool :=
  containsChars s.data substr.data

/-- First loop of Go path.Base: drop the slashes at the end. -/
def stripTrailingSlashes (cs : List Char) : List Char :=
  (cs.reverse.dropWhile (fun c => c == '/')).reverse

/-- Second part of Go path.Base: what follows the last slash (all of it when
there is none). -/
def lastElement (cs : List Char) : List Char :=
  (cs.reverse.takeWhile (fun c => c != '/')).reverse

/-- Go path.Base: the last element of a slash-separated path. -/
def Base (path : String) : String :=
  if path = "" then "."
  else
    let p := lastElement (stripTrailingSlashes path.data)
    if p = [] then "/" else String.mk p

/-- Go `map[string]bool`: a key is absent (`none`) or bound to a value. -/
abbrev WatchedMap := String → Option Bool

/-- The map literal `map[string]bool{}`. -/
def mapEmpty : WatchedMap := fun _ => none

/-- Go `m[k]`: the value, or `false` when the key is absent. -/
def mapGet (m : WatchedMap) (k : String) : Bool := (m k).getD false

/-- Go `m[k] = v`. -/
def mapSet (m : WatchedMap) (k : String) (v : Bool) : WatchedMap :=
  fun q => if q = k then some v else m q

/-- Go `delete(m, k)`. -/
def mapDelete (m : WatchedMap) (k : String) : WatchedMap :=
  fun q => if q = k then none else m q

/-- The watch list after the call `watcher.Add(p)`; `ok` tells whether the
operating system accepted the subscription.  See `State.subs` for what the
list stands for. -/
def watcherAdd (ok : Bool) (subs : List String) (p : String) : List String :=
  if ok then (if p ∈ subs then subs else p :: subs) else subs

/-- The watch list after the call `watcher.Remove(p)` (an error on a path that
is not on the list, which the caller drops). -/
def watcherRemove (subs : List String) (p : String) : List String :=
  subs.filter (fun q => decide (q ≠ p))

/-- What the world outside answers while one event is handled. -/
structure Env where
  /-- Function `os.Stat` succeeds and reports a directory. -/
  isDirStat : String → Bool
  /-- Function `watcher.Add` returns no error. -/
  addOk : String → Bool
  /-- Function `publishSavedGame` returns no error. -/
  publishSavedGameOk : String → Bool
  /-- Function `publishOtherFiles` returns no error. -/
  publishOtherFilesOk : String → Bool
  /-- Function `filepath.Rel(stardewFolder(), p)`; `none` is its error. -/
  rel : String → Option String

/-- A recorded invocation of something outside the loop. -/
inductive Call where
  | watcherAdd (p : String)
  | watcherRemove (p : String)
  | isDir (p : String)
  | publishSavedGame (p : String)
  | publishOtherFiles (p : String)
  | log (line : String)
  deriving DecidableEq, Repr

/-- Whether a call is one of the two publications. -/
def Call.isPublish : Call → Bool
  | .publishSavedGame _ => true
  | .publishOtherFiles _ => true
  | _ => false

/-- Whether a call is a `watcher.Add`. -/
def Call.isAdd : Call → Bool
  | .watcherAdd _ => true
  | _ => false

/-- Whether a call belongs to the classification switch or to publication. -/
def Call.isClassifyOrPublish : Call → Bool
  | .isDir _ => true
  | .publishSavedGame _ => true
  | .publishOtherFiles _ => true
  | _ => false

/-! ## The program -/

/-- The constant `verbose`. -/
def verbose : Bool := false

/-- The local variables `watched` and `watcher` of `watchAndPublish`. -/
structure State where
  /-- The map `watched`. -/
  watched : WatchedMap
  /-- The watch list of `watcher` as the calls of the program leave it: the names
  on which a `watcher.Add` was accepted and no `watcher.Remove` has been called
  since.  The operating system can end a watch by itself when the file is
  renamed or deleted, and fsnotify files a watch under the cleaned name; neither
  is modelled, so a name on this list need not have a live subscription. -/
  subs : List String

/-- Where a piece of the program leaves off: the state, the calls it made, and
whether it ended the process through `log.Fatal`. -/
structure Step where
  state : State
  calls : List Call
  fatal : Bool

/-- Function `relPath`; `none` stands for its `log.Fatal(err)`. -/
def relPath (env : Env) (p : String) : Option String := env.rel p

/-- A log line that prints `relPath(p)`: the line, or the fatal exit of
`relPath`. -/
def logRel (env : Env) (msg p : String) : List Call × Bool :=
  match relPath env p with
  | some r => ([Call.log (msg ++ r)], false)
  | none => ([], true)

/-- The same under `if verbose`. -/
def logRelVerbose (env : Env) (msg p : String) : List Call × Bool :=
  if verbose then logRel env msg p else ([], false)

/-- Lines 99-109: drop the path on Remove, otherwise add it when it is not yet
watched. -/
def updateWatchSet (env : Env) (s : State) (e : Event) : Step :=
  if e.Op &&& Remove = Remove then
    let l := logRelVerbose env "Deleted file watch: " e.Name
    { state := { watched := mapDelete s.watched e.Name,
                 subs := watcherRemove s.subs e.Name },
      calls := Call.watcherRemove e.Name :: l.1,
      fatal := l.2 }
  else if !(mapGet s.watched e.Name) then
    let l := logRel env "Watching " e.Name
    { state := { watched := mapSet s.watched e.Name true,
                 subs := watcherAdd (env.addOk e.Name) s.subs e.Name },
      calls := Call.watcherAdd e.Name :: l.1,
      fatal := l.2 }
  else
    { state := s, calls := [], fatal := false }

/-- Function `isDir`: `os.Stat` succeeded and the path is a directory. -/
def isDir (env : Env) (path : String) : Bool := env.isDirStat path

/-- The four cases of the switch at lines 114-138. -/
inductive Class where
  | Directory
  | TempArtifact
  | PrimaryRecord
  | SecondaryRecord
  deriving DecidableEq, Repr

/-- The case the switch at lines 114-138 selects; cases are tried in order. -/
def classify (env : Env) (name : String) : Class :=
  if isDir env name then Class.Directory
  else if Contains (Base name) "SAVETMP" then Class.TempArtifact
  else if Contains (Base name) "SaveGameInfo" then Class.PrimaryRecord
  else Class.SecondaryRecord

/-- Lines 110-139: on Create, Rename or Write, run the switch and publish. -/
def publishIfModified (env : Env) (e : Event) : List Call × Bool :=
  if e.Op &&& Create = Create ∨ e.Op &&& Rename = Rename ∨ e.Op &&& Write = Write then
    let l := logRelVerbose env "Found modified file: " e.Name
    if l.2 then l
    else
      match classify env e.Name with
      | Class.Directory => (l.1 ++ [Call.isDir e.Name], false)
      | Class.TempArtifact => (l.1 ++ [Call.isDir e.Name], false)
      | Class.PrimaryRecord =>
        if env.publishSavedGameOk e.Name then
          (l.1 ++ [Call.isDir e.Name, Call.publishSavedGame e.Name,
                   Call.log "[x] New save game published"], false)
        else
          (l.1 ++ [Call.isDir e.Name, Call.publishSavedGame e.Name]
               ++ (if verbose then [Call.log "could not publish new save game content:"] else []),
           false)
      | Class.SecondaryRecord =>
        if env.publishOtherFilesOk e.Name then
          (l.1 ++ [Call.isDir e.Name, Call.publishOtherFiles e.Name,
                   Call.log "[x] New detailed game file published"], false)
        else
          let l2 := logRelVerbose env "could not publish content: " e.Name
          (l.1 ++ [Call.isDir e.Name, Call.publishOtherFiles e.Name] ++ l2.1, l2.2)
  else ([], false)

/-- Lines 95-139: one iteration of the loop on `case event := <-watcher.Events`. -/
def handleEvent (env : Env) (s : State) (e : Event) : Step :=
  let l := logRelVerbose env "file watch: " e.Name
  if l.2 then { state := s, calls := l.1, fatal := true }
  else
    let u := updateWatchSet env s e
    if u.fatal then { state := u.state, calls := l.1 ++ u.calls, fatal := true }
    else
      let p := publishIfModified env e
      { state := u.state, calls := l.1 ++ u.calls ++ p.1, fatal := p.2 }

/-- The loop of lines 82-143 on the events delivered before the stop signal,
each with what the world answers while it is handled.  The loop goes on to the
next event unless the process has exited. -/
def run : State → List (Env × Event) → Step
  | s, [] => { state := s, calls := [], fatal := false }
  | s, x :: rest =>
    let r := handleEvent x.1 s x.2
    if r.fatal then r
    else
      let r2 := run r.state rest
      { state := r2.state, calls := r.calls ++ r2.calls, fatal := r2.fatal }

/-- What start-up sees of the disk. -/
structure FileSystem where
  /-- The value of `stardewFolder()`. -/
  root : String
  /-- The directories that exist as immediate children of the root. -/
  saveDirs : List String
  /-- Go filepath.Glob as it answers on this disk: the matches of a pattern, or
  `none` for its error (a malformed pattern). -/
  Glob : String → Option (List String)

/-- Function `stardewFolder`: the watch root. -/
def stardewFolder (fs : FileSystem) : String := fs.root

/-- Function `allSaveGameInfos`: `filepath.Glob(stardewFolder() + "/*/*")`; the
root is part of the pattern. -/
def allSaveGameInfos (fs : FileSystem) : Option (List String) :=
  fs.Glob (stardewFolder fs ++ "/*/*")

/-- Lines 70-77: subscribe and record every path of the listing. -/
def registerSaves (env : Env) : State → List String → Step
  | s, [] => { state := s, calls := [], fatal := false }
  | s, save :: rest =>
    if !(env.addOk save) then
      { state := s, calls := [Call.watcherAdd save], fatal := true }
    else
      let subs := watcherAdd true s.subs save
      match relPath env save with
      | none =>
        { state := { watched := s.watched, subs := subs },
          calls := [Call.watcherAdd save], fatal := true }
      | some r =>
        let r2 := registerSaves env { watched := mapSet s.watched save true, subs := subs } rest
        { state := r2.state,
          calls := Call.watcherAdd save :: Call.log ("Watching " ++ r) :: r2.calls,
          fatal := r2.fatal }

/-- Lines 51-77 of `watchAndPublish`: a new watcher, the listing, the root
subscription and a fresh `watched` map filled from the listing. -/
def startWatch (fs : FileSystem) (env : Env) (newWatcherOk : Bool) : Step :=
  if !newWatcherOk then
    { state := { watched := mapEmpty, subs := [] }, calls := [], fatal := true }
  else
    match allSaveGameInfos fs with
    | none => { state := { watched := mapEmpty, subs := [] }, calls := [], fatal := true }
    | some gameSaves =>
      if !(env.addOk (stardewFolder fs)) then
        { state := { watched := mapEmpty, subs := [] },
          calls := [Call.watcherAdd (stardewFolder fs)], fatal := true }
      else
        let r := registerSaves env
          { watched := mapEmpty, subs := watcherAdd true [] (stardewFolder fs) } gameSaves
        { state := r.state,
          calls := Call.watcherAdd (stardewFolder fs) :: r.calls,
          fatal := r.fatal }

/-- Function `watchAndPublish` up to the stop signal: start-up, then the loop
on the events delivered. -/
def watchAndPublish (fs : FileSystem) (env : Env) (newWatcherOk : Bool)
    (events : List (Env × Event)) : Step :=
  let r := startWatch fs env newWatcherOk
  if r.fatal then r
  else
    let r2 := run r.state events
    { state := r2.state, calls := r.calls ++ r2.calls, fatal := r2.fatal }

/-- Go time.Second, in nanoseconds. -/
def Second : Int := 1000000000

/-- Wrap-around of a Go int64 (time.Duration). -/
def wrapInt64 (x : Int) : Int := (x + 2 ^ 63) % 2 ^ 64 - 2 ^ 63

/-- Function `randSleep` on the number `n` drawn by `rand.Int(rand.Reader, 60)`:
`time.Duration(n.Int64()) * time.Second`. -/
def randSleep (n : Int) : Int := wrapInt64 (wrapInt64 n * Second)

/-! ## Sample inputs -/

/-- A world in which nothing is a directory and every call succeeds. -/
def envOk : Env :=
  { isDirStat := fun _ => false,
    addOk := fun _ => true,
    publishSavedGameOk := fun _ => true,
    publishOtherFilesOk := fun _ => true,
    rel := fun p => some p }

/-- A world that differs from `envOk` in that every path is a directory. -/
def envDir : Env := { envOk with isDirStat := fun _ => true }

/-- A world that differs from `envOk` in that no subscription is accepted. -/
def envAddFails : Env := { envOk with addOk := fun _ => false }

/-- A world that differs from `envOk` in that both publications fail. -/
def envPublishFails : Env :=
  { envOk with publishSavedGameOk := fun _ => false, publishOtherFilesOk := fun _ => false }

/-- A state with nothing watched. -/
def emptyState : State := { watched := mapEmpty, subs := [] }

/-- The world `env` with both publications succeeding. -/
def withPublishOk (env : Env) : Env :=
  { env with publishSavedGameOk := fun _ => true, publishOtherFilesOk := fun _ => true }

/-- The set the specification names for a fresh Watch Set: the watch root and
the directories that are its immediate children. -/
def rootAndSaveDirs (fs : FileSystem) : List String :=
  stardewFolder fs :: fs.saveDirs

/-- The Watch Set invariant as the specification states it: a path is bound to true
in `watched` exactly when it is subscribed with the watcher. -/
def RegisteredIffSubscribed (s : State) : Prop :=
  ∀ p, s.watched p = some true ↔ p ∈ s.subs

/-- What a call does to the watch of path `p`: `some true` for `watcher.Add(p)`,
`some false` for `watcher.Remove(p)`, `none` for any other call. -/
def watcherCallOn (p : String) : Call → Option Bool
  | .watcherAdd q => if q = p then some true else none
  | .watcherRemove q => if q = p then some false else none
  | _ => none

/-- The latest watcher call on `p` in a list of calls, `acc` when there is
none. -/
def lastFrom (p : String) : Option Bool → List Call → Option Bool
  | acc, [] => acc
  | acc, c :: rest =>
    match watcherCallOn p c with
    | some b => lastFrom p (some b) rest
    | none => lastFrom p acc rest

/-- The latest call of the program on the watch of `p`: `some true` when it is a
`watcher.Add(p)`, `some false` when it is a `watcher.Remove(p)`, `none` when the
program has made neither. -/
def lastWatcherCall (p : String) (calls : List Call) : Option Bool :=
  lastFrom p none calls

/-- The relation that the program keeps between `watched` and its own watcher
calls: every key is bound to true, a path bound to true is one whose latest
watcher call is an Add, and a path other than the root whose latest watcher call
is an Add is bound to true. -/
def Mirrors (root : String) (watched : WatchedMap) (last : String → Option Bool) : Prop :=
  (∀ p, watched p = none ∨ watched p = some true) ∧
  (∀ p, watched p = some true → last p = some true) ∧
  (∀ p, p ≠ root → last p = some true → watched p = some true)

/-- A disk with one save directory, `Saves/Farm_1`, holding the two files
`Farm_1` and `SaveGameInfo`; Glob answers on it as the library does. -/
def oneFarm : FileSystem :=
  { root := "Saves",
    saveDirs := ["Saves/Farm_1"],
    Glob := fun pattern =>
      if pattern = "Saves/*/*" then some ["Saves/Farm_1/Farm_1", "Saves/Farm_1/SaveGameInfo"]
      else some [] }

/-- A disk with no save directory yet. -/
def noFarm : FileSystem :=
  { root := "Saves", saveDirs := [], Glob := fun _ => some [] }

/-! ## Basic facts -/

theorem logRelVerbose_eq (env : Env) (msg p : String) :
    logRelVerbose env msg p = ([], false) := by
  simp [logRelVerbose, verbose]

theorem handleEvent_eq (env : Env) (s : State) (e : Event) :
    handleEvent env s e =
      if (updateWatchSet env s e).fatal then
        { state := (updateWatchSet env s e).state, calls := (updateWatchSet env s e).calls,
          fatal := true }
      else
        { state := (updateWatchSet env s e).state,
          calls := (updateWatchSet env s e).calls ++ (publishIfModified env e).1,
          fatal := (publishIfModified env e).2 } := by
  simp [handleEvent, logRelVerbose_eq]

theorem handleEvent_state (env : Env) (s : State) (e : Event) :
    (handleEvent env s e).state = (updateWatchSet env s e).state := by
  rw [handleEvent_eq]
  split <;> rfl

theorem publishIfModified_not_fatal (env : Env) (e : Event) :
    (publishIfModified env e).2 = false := by
  unfold publishIfModified
  simp only [logRelVerbose_eq]
  split
  · cases classify env e.Name <;> simp <;> split <;> simp
  · rfl

theorem handleEvent_fatal (env : Env) (s : State) (e : Event) :
    (handleEvent env s e).fatal = (updateWatchSet env s e).fatal := by
  rw [handleEvent_eq]
  split
  · next h => simp [h]
  · next h => simp [publishIfModified_not_fatal, h]

theorem updateWatchSet_calls_not_classify (env : Env) (s : State) (e : Event) :
    ∀ c ∈ (updateWatchSet env s e).calls, c.isClassifyOrPublish = false := by
  unfold updateWatchSet
  simp only [logRelVerbose_eq, logRel]
  intro c hc
  split at hc
  · simp at hc; subst hc; rfl
  · split at hc
    · cases hrel : relPath env e.Name <;> simp [hrel] at hc
      · subst hc; rfl
      · rcases hc with hc | hc <;> subst hc <;> rfl
    · simp at hc

theorem isPublish_le (c : Call) (h : c.isClassifyOrPublish = false) : c.isPublish = false := by
  cases c <;> simp_all [Call.isPublish, Call.isClassifyOrPublish]

theorem handleEvent_calls_subset (env : Env) (s : State) (e : Event) :
    ∀ c ∈ (handleEvent env s e).calls,
      c ∈ (updateWatchSet env s e).calls ∨ c ∈ (publishIfModified env e).1 := by
  intro c hc
  rw [handleEvent_eq] at hc
  split at hc
  · exact Or.inl hc
  · exact List.mem_append.mp hc

theorem publishIfModified_temp (env : Env) (e : Event)
    (h : Contains (Base e.Name) "SAVETMP" = true) :
    ∀ c ∈ (publishIfModified env e).1, c.isPublish = false := by
  have hc : classify env e.Name = Class.Directory ∨ classify env e.Name = Class.TempArtifact := by
    unfold classify
    by_cases hd : isDir env e.Name = true <;> simp [hd, h]
  intro c hmem
  unfold publishIfModified at hmem
  simp only [logRelVerbose_eq] at hmem
  split at hmem
  · rcases hc with hc | hc <;> simp [hc] at hmem <;> subst hmem <;> rfl
  · simp at hmem

/-! ## Claims -/

/-- C1: whatever the starting Watch Set and whatever the world answers, the
loop run on any sequence of events (of any operation, so in particular Create,
Write or Rename) on paths whose base name contains "SAVETMP" calls neither
publishSavedGame nor publishOtherFiles. -/
theorem temp_artifact_never_published (s : State) (evs : List (Env × Event))
    (h : ∀ x ∈ evs, Contains (Base x.2.Name) "SAVETMP" = true) :
    (run s evs).calls.filter Call.isPublish = [] := by
  induction evs generalizing s with
  | nil => simp [run]
  | cons x rest ih =>
    have hx : (handleEvent x.1 s x.2).calls.filter Call.isPublish = [] := by
      rw [List.filter_eq_nil_iff]
      intro c hc
      rcases handleEvent_calls_subset x.1 s x.2 c hc with h1 | h1
      · simp [isPublish_le c (updateWatchSet_calls_not_classify x.1 s x.2 c h1)]
      · simp [publishIfModified_temp x.1 x.2 (h x (List.mem_cons_self _ _)) c h1]
    simp only [run]
    split
    · exact hx
    · simp only [List.filter_append, hx, List.nil_append]
      exact ih (handleEvent x.1 s x.2).state (fun y hy => h y (List.mem_cons_of_mem _ hy))

/-- Witness of C1: a Create, a Write and a Rename of a temporary save file. -/
theorem temp_artifact_never_published_witness :
    (run emptyState
        [(envOk, ⟨"Saves/Farm_1/SaveGameInfo_STARDEWVALLEYSAVETMP", Create⟩),
         (envOk, ⟨"Saves/Farm_1/SaveGameInfo_STARDEWVALLEYSAVETMP", Write⟩),
         (envOk, ⟨"Saves/Farm_1/SaveGameInfo_STARDEWVALLEYSAVETMP", Rename⟩)]).calls.filter
      Call.isPublish = [] :=
  temp_artifact_never_published emptyState _ (by decide)

/-- C2: after a step on an event with the Remove bit the event path is not a
key of `watched`, whether or not it was one before, and every other key keeps
its binding. -/
theorem remove_unregisters (env : Env) (s : State) (e : Event)
    (h : e.Op &&& Remove = Remove) :
    (handleEvent env s e).state.watched e.Name = none ∧
    ∀ q, q ≠ e.Name → (handleEvent env s e).state.watched q = s.watched q := by
  rw [handleEvent_state]
  simp [updateWatchSet, h, mapDelete]
  intro q hq
  simp [hq]

/-- Witness of C2: a Remove of a path that was never registered, next to a
registered one. -/
theorem remove_unregisters_witness :
    (handleEvent envOk ⟨mapSet mapEmpty "Saves/Farm_1/SaveGameInfo" true,
        ["Saves/Farm_1/SaveGameInfo"]⟩ ⟨"Saves/Farm_1/old", Remove⟩).state.watched
      "Saves/Farm_1/old" = none ∧
    (handleEvent envOk ⟨mapSet mapEmpty "Saves/Farm_1/SaveGameInfo" true,
        ["Saves/Farm_1/SaveGameInfo"]⟩ ⟨"Saves/Farm_1/old", Remove⟩).state.watched
      "Saves/Farm_1/SaveGameInfo" = some true :=
  ⟨(remove_unregisters envOk _ ⟨"Saves/Farm_1/old", Remove⟩ (by decide)).1,
   ((remove_unregisters envOk ⟨mapSet mapEmpty "Saves/Farm_1/SaveGameInfo" true,
        ["Saves/Farm_1/SaveGameInfo"]⟩ ⟨"Saves/Farm_1/old", Remove⟩ (by decide)).2
      "Saves/Farm_1/SaveGameInfo" (by decide)).trans (by decide)⟩

/-- C3: on an event without the Remove bit whose path is not registered, the
step calls watcher.Add on the path before anything else (so before `isDir` and
before either publication) and `watched[path]` is true afterwards, whatever the
world answers to the subscription, to the classification and to the publish
attempt. -/
theorem register_before_classify (env : Env) (s : State) (e : Event)
    (hnew : mapGet s.watched e.Name = false) (hop : e.Op &&& Remove ≠ Remove) :
    (handleEvent env s e).calls.head? = some (Call.watcherAdd e.Name) ∧
    (handleEvent env s e).state.watched e.Name = some true ∧
    (handleEvent env s e).state = (updateWatchSet env s e).state := by
  refine ⟨?_, ?_, handleEvent_state env s e⟩
  · rw [handleEvent_eq]
    split <;> simp [updateWatchSet, hop, hnew]
  · rw [handleEvent_state]
    simp [updateWatchSet, hop, hnew, mapSet]

/-- Witness of C3: a Create of a new primary record whose publication fails. -/
theorem register_before_classify_witness :
    (handleEvent envPublishFails emptyState ⟨"Saves/Farm_1/SaveGameInfo", Create⟩).calls.head?
      = some (Call.watcherAdd "Saves/Farm_1/SaveGameInfo") ∧
    (handleEvent envPublishFails emptyState ⟨"Saves/Farm_1/SaveGameInfo", Create⟩).state.watched
        "Saves/Farm_1/SaveGameInfo" = some true ∧
    (handleEvent envPublishFails emptyState ⟨"Saves/Farm_1/SaveGameInfo", Create⟩).state
      = (updateWatchSet envPublishFails emptyState ⟨"Saves/Farm_1/SaveGameInfo", Create⟩).state :=
  register_before_classify envPublishFails emptyState ⟨"Saves/Farm_1/SaveGameInfo", Create⟩
    (by decide) (by decide)

/-- C4 as stated fails: a directory whose base name contains both "SAVETMP" and
"SaveGameInfo" is taken by the first case of the switch, not by the
temp-artifact case. -/
theorem classify_both_markers_directory :
    Contains (Base "Saves/SaveGameInfo_SAVETMP") "SAVETMP" = true ∧
    Contains (Base "Saves/SaveGameInfo_SAVETMP") "SaveGameInfo" = true ∧
    classify envDir "Saves/SaveGameInfo_SAVETMP" = Class.Directory ∧
    classify envDir "Saves/SaveGameInfo_SAVETMP" ≠ Class.TempArtifact := by
  decide

/-- C4 amended: a path whose base name contains both "SAVETMP" and
"SaveGameInfo" is classified TempArtifact unless it is a directory, in which
case it is classified Directory; it is never PrimaryRecord or SecondaryRecord. -/
theorem classify_temp_before_record (env : Env) (name : String)
    (htmp : Contains (Base name) "SAVETMP" = true)
    (_hrec : Contains (Base name) "SaveGameInfo" = true) :
    (isDir env name = false → classify env name = Class.TempArtifact) ∧
    (isDir env name = true → classify env name = Class.Directory) ∧
    classify env name ≠ Class.PrimaryRecord ∧
    classify env name ≠ Class.SecondaryRecord := by
  unfold classify
  cases hd : isDir env name <;> simp [htmp]

/-- Witness of C4 amended: the temporary file of the primary record. -/
theorem classify_temp_before_record_witness :
    Contains (Base "Saves/Farm_1/SaveGameInfo_STARDEWVALLEYSAVETMP") "SAVETMP" = true ∧
    Contains (Base "Saves/Farm_1/SaveGameInfo_STARDEWVALLEYSAVETMP") "SaveGameInfo" = true ∧
    classify envOk "Saves/Farm_1/SaveGameInfo_STARDEWVALLEYSAVETMP" = Class.TempArtifact ∧
    classify envDir "Saves/Farm_1/SaveGameInfo_STARDEWVALLEYSAVETMP" = Class.Directory :=
  ⟨by decide, by decide,
   (classify_temp_before_record envOk "Saves/Farm_1/SaveGameInfo_STARDEWVALLEYSAVETMP"
      (by decide) (by decide)).1 (by decide),
   (classify_temp_before_record envDir "Saves/Farm_1/SaveGameInfo_STARDEWVALLEYSAVETMP"
      (by decide) (by decide)).2.1 (by decide)⟩

/-- C8 as stated fails: an event with the Remove and the Rename bit on a
primary record is unregistered and then classified and published. -/
theorem remove_with_rename_publishes :
    (12 : Nat) &&& Remove = Remove ∧
    (handleEvent envOk emptyState ⟨"Saves/Farm_1/SaveGameInfo", 12⟩).calls =
      [Call.watcherRemove "Saves/Farm_1/SaveGameInfo", Call.isDir "Saves/Farm_1/SaveGameInfo",
       Call.publishSavedGame "Saves/Farm_1/SaveGameInfo",
       Call.log "[x] New save game published"] := by
  decide

/-- C8 amended: on an event with the Remove bit and none of the Create, Write
and Rename bits, the step only unregisters the path (one watcher.Remove call,
the key deleted) and the loop goes on: no classification, no publication. -/
theorem remove_only_unregisters (env : Env) (s : State) (e : Event)
    (hrm : e.Op &&& Remove = Remove)
    (hc : e.Op &&& Create ≠ Create) (hw : e.Op &&& Write ≠ Write)
    (hr : e.Op &&& Rename ≠ Rename) :
    (handleEvent env s e).calls = [Call.watcherRemove e.Name] ∧
    (handleEvent env s e).state.watched = mapDelete s.watched e.Name ∧
    (handleEvent env s e).state.subs = watcherRemove s.subs e.Name ∧
    (handleEvent env s e).fatal = false := by
  rw [handleEvent_eq]
  simp [updateWatchSet, publishIfModified, hrm, hc, hw, hr, logRelVerbose_eq]

/-- Witness of C8 amended: a plain Remove of a watched primary record. -/
theorem remove_only_unregisters_witness :
    (handleEvent envOk ⟨mapSet mapEmpty "Saves/Farm_1/SaveGameInfo" true,
        ["Saves/Farm_1/SaveGameInfo"]⟩ ⟨"Saves/Farm_1/SaveGameInfo", Remove⟩).calls
      = [Call.watcherRemove "Saves/Farm_1/SaveGameInfo"] ∧
    (handleEvent envOk ⟨mapSet mapEmpty "Saves/Farm_1/SaveGameInfo" true,
        ["Saves/Farm_1/SaveGameInfo"]⟩ ⟨"Saves/Farm_1/SaveGameInfo", Remove⟩).state.watched
      = mapDelete (mapSet mapEmpty "Saves/Farm_1/SaveGameInfo" true) "Saves/Farm_1/SaveGameInfo" ∧
    (handleEvent envOk ⟨mapSet mapEmpty "Saves/Farm_1/SaveGameInfo" true,
        ["Saves/Farm_1/SaveGameInfo"]⟩ ⟨"Saves/Farm_1/SaveGameInfo", Remove⟩).state.subs
      = watcherRemove ["Saves/Farm_1/SaveGameInfo"] "Saves/Farm_1/SaveGameInfo" ∧
    (handleEvent envOk ⟨mapSet mapEmpty "Saves/Farm_1/SaveGameInfo" true,
        ["Saves/Farm_1/SaveGameInfo"]⟩ ⟨"Saves/Farm_1/SaveGameInfo", Remove⟩).fatal = false :=
  remove_only_unregisters envOk _ ⟨"Saves/Farm_1/SaveGameInfo", Remove⟩
    (by decide) (by decide) (by decide) (by decide)

/-- C10: for a draw `n` with 0 <= n < 60, randSleep returns n whole seconds,
n * 1,000,000,000 nanoseconds, a duration from 0 up to but not including 60
seconds. -/
theorem randSleep_bounds (n : Int) (h0 : 0 ≤ n) (h60 : n < 60) :
    randSleep n = n * 1000000000 ∧ 0 ≤ randSleep n ∧ randSleep n < 60 * Second := by
  have hn : wrapInt64 n = n := by
    unfold wrapInt64
    norm_num
    omega
  have hd : randSleep n = n * 1000000000 := by
    unfold randSleep
    rw [hn]
    unfold wrapInt64 Second
    norm_num
    omega
  rw [hd]
  unfold Second
  omega

/-- Witness of C10: the largest draw. -/
theorem randSleep_bounds_witness :
    randSleep 59 = 59 * 1000000000 ∧ 0 ≤ randSleep 59 ∧ randSleep 59 < 60 * Second :=
  randSleep_bounds 59 (by decide) (by decide)

/-! ## Publication errors -/

theorem updateWatchSet_no_publish (env : Env) (s : State) (e : Event) :
    (updateWatchSet env s e).calls.filter Call.isPublish = [] := by
  rw [List.filter_eq_nil_iff]
  intro c hc
  simp [isPublish_le c (updateWatchSet_calls_not_classify env s e c hc)]

/-- C9: on a Create, Write or Rename event whose path is classified
PrimaryRecord or SecondaryRecord and whose publish attempt returns an error,
the step does not end the loop (the loop goes on with the next event), makes
exactly one publish call, and leaves the state that it leaves when the
publication succeeds. -/
theorem publish_error_swallowed (env : Env) (s : State) (e : Event)
    (rest : List (Env × Event))
    (hop : e.Op &&& Create = Create ∨ e.Op &&& Rename = Rename ∨ e.Op &&& Write = Write)
    (hreach : (updateWatchSet env s e).fatal = false)
    (herr : (classify env e.Name = Class.PrimaryRecord ∧ env.publishSavedGameOk e.Name = false) ∨
      (classify env e.Name = Class.SecondaryRecord ∧ env.publishOtherFilesOk e.Name = false)) :
    (handleEvent env s e).fatal = false ∧
    ((handleEvent env s e).calls.filter Call.isPublish).length = 1 ∧
    (handleEvent env s e).state = (handleEvent (withPublishOk env) s e).state ∧
    (run s ((env, e) :: rest)).calls
      = (handleEvent env s e).calls ++ (run (handleEvent env s e).state rest).calls := by
  have hf : (handleEvent env s e).fatal = false := by
    rw [handleEvent_fatal]; exact hreach
  refine ⟨hf, ?_, ?_, ?_⟩
  · rw [handleEvent_eq]
    simp only [hreach, Bool.false_eq_true, if_false, List.filter_append,
      updateWatchSet_no_publish, List.nil_append]
    unfold publishIfModified
    simp only [logRelVerbose_eq, hop, if_true]
    rcases herr with ⟨hc, hp⟩ | ⟨hc, hp⟩ <;>
      simp [hc, hp, verbose, Call.isPublish, List.filter]
  · rw [handleEvent_state, handleEvent_state]
    rfl
  · simp [run, hf]

/-- Witness of C9: a Rename of the primary record while it cannot be read. -/
theorem publish_error_swallowed_witness :
    (handleEvent envPublishFails emptyState ⟨"SaveSlot1/SaveGameInfo", Rename⟩).fatal = false ∧
    ((handleEvent envPublishFails emptyState ⟨"SaveSlot1/SaveGameInfo", Rename⟩).calls.filter
      Call.isPublish).length = 1 ∧
    (handleEvent envPublishFails emptyState ⟨"SaveSlot1/SaveGameInfo", Rename⟩).state
      = (handleEvent (withPublishOk envPublishFails) emptyState
          ⟨"SaveSlot1/SaveGameInfo", Rename⟩).state ∧
    (run emptyState [(envPublishFails, ⟨"SaveSlot1/SaveGameInfo", Rename⟩),
        (envOk, ⟨"SaveSlot1/SaveGameInfo", Write⟩)]).calls
      = (handleEvent envPublishFails emptyState ⟨"SaveSlot1/SaveGameInfo", Rename⟩).calls ++
        (run (handleEvent envPublishFails emptyState ⟨"SaveSlot1/SaveGameInfo", Rename⟩).state
          [(envOk, ⟨"SaveSlot1/SaveGameInfo", Write⟩)]).calls :=
  publish_error_swallowed envPublishFails emptyState ⟨"SaveSlot1/SaveGameInfo", Rename⟩
    [(envOk, ⟨"SaveSlot1/SaveGameInfo", Write⟩)] (by decide) (by decide) (by decide)

/-! ## Start-up -/

theorem lastFrom_append (p : String) (l1 l2 : List Call) (acc : Option Bool) :
    lastFrom p acc (l1 ++ l2) = lastFrom p (lastFrom p acc l1) l2 := by
  induction l1 generalizing acc with
  | nil => rfl
  | cons c rest ih =>
    simp only [List.cons_append, lastFrom]
    cases watcherCallOn p c <;> exact ih _

theorem lastFrom_add (p q : String) (acc : Option Bool) (rest : List Call) :
    lastFrom p acc (Call.watcherAdd q :: rest)
      = lastFrom p (if q = p then some true else acc) rest := by
  by_cases h : q = p <;> simp [lastFrom, watcherCallOn, h]

theorem lastFrom_remove (p q : String) (acc : Option Bool) (rest : List Call) :
    lastFrom p acc (Call.watcherRemove q :: rest)
      = lastFrom p (if q = p then some false else acc) rest := by
  by_cases h : q = p <;> simp [lastFrom, watcherCallOn, h]

theorem lastFrom_log (p line : String) (acc : Option Bool) (rest : List Call) :
    lastFrom p acc (Call.log line :: rest) = lastFrom p acc rest := by
  simp [lastFrom, watcherCallOn]

theorem startWatch_ok (fs : FileSystem) (env : Env) (newWatcherOk : Bool)
    (h : (startWatch fs env newWatcherOk).fatal = false) :
    ∃ saves, allSaveGameInfos fs = some saves ∧
      env.addOk (stardewFolder fs) = true ∧
      (registerSaves env
        { watched := mapEmpty, subs := watcherAdd true [] (stardewFolder fs) } saves).fatal
          = false ∧
      startWatch fs env newWatcherOk =
        { state := (registerSaves env
            { watched := mapEmpty, subs := watcherAdd true [] (stardewFolder fs) } saves).state,
          calls := Call.watcherAdd (stardewFolder fs) :: (registerSaves env
            { watched := mapEmpty, subs := watcherAdd true [] (stardewFolder fs) } saves).calls,
          fatal := false } := by
  unfold startWatch at h ⊢
  cases hw : newWatcherOk
  · simp [hw] at h
  · simp only [hw, Bool.not_true, Bool.false_eq_true, if_false] at h ⊢
    cases hl : allSaveGameInfos fs with
    | none => simp [hl] at h
    | some saves =>
      simp only [hl] at h ⊢
      cases ha : env.addOk (stardewFolder fs)
      · simp [ha] at h
      · simp only [ha, Bool.not_true, Bool.false_eq_true, if_false] at h ⊢
        exact ⟨saves, rfl, trivial, h, by rw [h]⟩

theorem registerSaves_spec (env : Env) (saves : List String) (s : State)
    (h : (registerSaves env s saves).fatal = false) :
    (∀ p, (registerSaves env s saves).state.watched p
        = if p ∈ saves then some true else s.watched p) ∧
    (registerSaves env s saves).calls.filter Call.isAdd = saves.map Call.watcherAdd ∧
    (∀ p ∈ saves, env.addOk p = true) ∧
    (∀ p acc, lastFrom p acc (registerSaves env s saves).calls
        = if p ∈ saves then some true else acc) ∧
    (∀ p, (registerSaves env s saves).calls.count (Call.watcherAdd p) = saves.count p) := by
  induction saves generalizing s with
  | nil => simp [registerSaves, lastFrom]
  | cons save rest ih =>
    unfold registerSaves at h ⊢
    cases hadd : env.addOk save
    · simp [hadd] at h
    · simp only [hadd, Bool.not_true, Bool.false_eq_true, if_false] at h ⊢
      cases hrel : relPath env save with
      | none => simp [hrel] at h
      | some r =>
        simp only [hrel] at h ⊢
        obtain ⟨h1, h2, h3, h4, h5⟩ := ih _ h
        refine ⟨?_, ?_, ?_, ?_, ?_⟩
        · intro p
          rw [h1 p]
          by_cases hp : p ∈ rest
          · simp [hp]
          · by_cases hps : p = save <;> simp [hp, hps, mapSet]
        · simp [List.filter, Call.isAdd, h2]
        · intro p hp
          rcases List.mem_cons.mp hp with hp | hp
          · rw [hp]; exact hadd
          · exact h3 p hp
        · intro p acc
          rw [lastFrom_add, lastFrom_log, h4]
          by_cases hp : p ∈ rest
          · simp [hp]
          · by_cases hps : p = save
            · subst hps
              simp [hp]
            · have hps2 : ¬ save = p := fun h => hps h.symm
              simp [hp, hps, hps2]
        · intro p
          by_cases hp : save = p
          · subst hp
            simp [List.count_cons, h5]
          · simp [List.count_cons, h5, hp]

/-- C5 as stated fails: with one save directory on disk, the fresh `watched`
map holds the two files inside the directory and holds neither the root nor the
directory, and the watch list holds the root and the two files but not the
directory. -/
theorem startup_listing_counterexample :
    (startWatch oneFarm envOk true).fatal = false ∧
    rootAndSaveDirs oneFarm = ["Saves", "Saves/Farm_1"] ∧
    (startWatch oneFarm envOk true).state.watched "Saves" = none ∧
    (startWatch oneFarm envOk true).state.watched "Saves/Farm_1" = none ∧
    (startWatch oneFarm envOk true).state.watched "Saves/Farm_1/SaveGameInfo" = some true ∧
    (startWatch oneFarm envOk true).state.watched "Saves/Farm_1/Farm_1" = some true ∧
    (startWatch oneFarm envOk true).state.subs
      = ["Saves/Farm_1/SaveGameInfo", "Saves/Farm_1/Farm_1", "Saves"] := by
  decide

/-- C5 amended: whenever start-up gets through (no log.Fatal), the listing
`filepath.Glob(stardewFolder() + "/*/*")` has returned a list of paths, the
fresh `watched` map binds exactly those paths to true and has no other key, and
the watcher.Add calls of start-up are one on the root followed by one on each
listed path in order, every one of them accepted.  Nothing of an earlier cycle
enters: start-up takes no state. -/
theorem fresh_watch_set (fs : FileSystem) (env : Env) (newWatcherOk : Bool)
    (h : (startWatch fs env newWatcherOk).fatal = false) :
    ∃ saves, allSaveGameInfos fs = some saves ∧
      (∀ p, p ∈ saves → (startWatch fs env newWatcherOk).state.watched p = some true) ∧
      (∀ p, p ∉ saves → (startWatch fs env newWatcherOk).state.watched p = none) ∧
      (startWatch fs env newWatcherOk).calls.filter Call.isAdd
        = Call.watcherAdd (stardewFolder fs) :: saves.map Call.watcherAdd ∧
      env.addOk (stardewFolder fs) = true ∧
      (∀ p, p ∈ saves → env.addOk p = true) := by
  obtain ⟨saves, hl, ha, hf, heq⟩ := startWatch_ok fs env newWatcherOk h
  obtain ⟨h1, h2, h3, _, _⟩ := registerSaves_spec env saves _ hf
  refine ⟨saves, hl, ?_, ?_, ?_, ha, h3⟩
  · intro p hp
    rw [heq]
    simp only [h1 p, hp, if_true]
  · intro p hp
    rw [heq]
    simp only [h1 p, hp, if_false, mapEmpty]
  · rw [heq]
    simp [List.filter, Call.isAdd, h2]

/-- Witness of C5 amended: the disk with one save directory. -/
theorem fresh_watch_set_witness :
    allSaveGameInfos oneFarm = some ["Saves/Farm_1/Farm_1", "Saves/Farm_1/SaveGameInfo"] ∧
    (startWatch oneFarm envOk true).state.watched "Saves/Farm_1/SaveGameInfo" = some true ∧
    (startWatch oneFarm envOk true).state.watched "Saves/Farm_1" = none ∧
    (startWatch oneFarm envOk true).calls.filter Call.isAdd
      = [Call.watcherAdd "Saves", Call.watcherAdd "Saves/Farm_1/Farm_1",
         Call.watcherAdd "Saves/Farm_1/SaveGameInfo"] := by
  obtain ⟨saves, hl, h1, h2, h3, _, _⟩ := fresh_watch_set oneFarm envOk true (by decide)
  have hs : saves = ["Saves/Farm_1/Farm_1", "Saves/Farm_1/SaveGameInfo"] := by
    have hd : allSaveGameInfos oneFarm
        = some ["Saves/Farm_1/Farm_1", "Saves/Farm_1/SaveGameInfo"] := by decide
    rw [hd] at hl
    exact (Option.some.inj hl).symm
  subst hs
  exact ⟨hl, h1 _ (by decide), h2 _ (by decide), h3⟩

/-! ## The Watch Set and the watcher calls -/

theorem lastFrom_publishIfModified (env : Env) (e : Event) (p : String) (acc : Option Bool) :
    lastFrom p acc (publishIfModified env e).1 = acc := by
  unfold publishIfModified
  simp only [logRelVerbose_eq]
  split
  · cases classify env e.Name <;> simp [lastFrom, watcherCallOn] <;> split <;>
      simp [lastFrom, watcherCallOn, verbose]
  · rfl

theorem lastFrom_handleEvent (env : Env) (s : State) (e : Event) (p : String)
    (acc : Option Bool) :
    lastFrom p acc (handleEvent env s e).calls
      = lastFrom p acc (updateWatchSet env s e).calls := by
  rw [handleEvent_eq]
  split
  · rfl
  · simp only [lastFrom_append, lastFrom_publishIfModified]

theorem lastFrom_updateWatchSet (env : Env) (s : State) (e : Event) (p : String)
    (acc : Option Bool) :
    lastFrom p acc (updateWatchSet env s e).calls =
      if e.Op &&& Remove = Remove then (if e.Name = p then some false else acc)
      else if mapGet s.watched e.Name = false then (if e.Name = p then some true else acc)
      else acc := by
  unfold updateWatchSet
  simp only [logRelVerbose_eq, logRel]
  split
  · rw [lastFrom_remove]; rfl
  · split
    · next hg =>
      have hg2 : mapGet s.watched e.Name = false := by simpa using hg
      rw [lastFrom_add, if_pos hg2]
      cases relPath env e.Name <;> simp [lastFrom, watcherCallOn]
    · next hg =>
      have hg2 : ¬ mapGet s.watched e.Name = false := by simpa using hg
      rw [if_neg hg2]
      rfl

theorem handleEvent_mirrors (root : String) (env : Env) (s : State) (e : Event)
    (last : String → Option Bool) (h : Mirrors root s.watched last) :
    Mirrors root (handleEvent env s e).state.watched
      (fun p => lastFrom p (last p) (handleEvent env s e).calls) := by
  obtain ⟨h1, h2, h3⟩ := h
  simp only [handleEvent_state, lastFrom_handleEvent, lastFrom_updateWatchSet]
  unfold updateWatchSet
  by_cases hrm : e.Op &&& Remove = Remove
  · simp only [hrm, if_true]
    refine ⟨?_, ?_, ?_⟩
    · intro p
      by_cases hp : p = e.Name
      · simp [mapDelete, hp]
      · simpa [mapDelete, hp] using h1 p
    · intro p hw
      by_cases hp : p = e.Name
      · simp [mapDelete, hp] at hw
      · have hp2 : ¬ e.Name = p := fun h => hp h.symm
        simp only [mapDelete, hp, if_false] at hw
        simpa [hp2] using h2 p hw
    · intro p hr hl
      by_cases hp : p = e.Name
      · simp [hp] at hl
      · have hp2 : ¬ e.Name = p := fun h => hp h.symm
        simp only [hp2, if_false] at hl
        simpa [mapDelete, hp] using h3 p hr hl
  · simp only [hrm, if_false]
    by_cases hg : mapGet s.watched e.Name = false
    · simp only [hg, Bool.not_false, if_true]
      refine ⟨?_, ?_, ?_⟩
      · intro p
        by_cases hp : p = e.Name
        · simp [mapSet, hp]
        · simpa [mapSet, hp] using h1 p
      · intro p hw
        by_cases hp : p = e.Name
        · simp [hp]
        · have hp2 : ¬ e.Name = p := fun h => hp h.symm
          simp only [mapSet, hp, if_false] at hw
          simpa [hp2] using h2 p hw
      · intro p hr hl
        by_cases hp : p = e.Name
        · simp [mapSet, hp]
        · have hp2 : ¬ e.Name = p := fun h => hp h.symm
          simp only [hp2, if_false] at hl
          simpa [mapSet, hp] using h3 p hr hl
    · have hg2 : mapGet s.watched e.Name = true := by simpa using hg
      simp only [hg2, Bool.not_true, Bool.false_eq_true, if_false]
      exact ⟨h1, h2, h3⟩

theorem run_mirrors (root : String) (evs : List (Env × Event)) (s : State)
    (last : String → Option Bool) (h : Mirrors root s.watched last) :
    Mirrors root (run s evs).state.watched (fun p => lastFrom p (last p) (run s evs).calls) := by
  induction evs generalizing s last with
  | nil => simpa [run, lastFrom] using h
  | cons x rest ih =>
    have hx := handleEvent_mirrors root x.1 s x.2 last h
    simp only [run]
    split
    · exact hx
    · simp only [lastFrom_append]
      exact ih _ _ hx

theorem startWatch_mirrors (fs : FileSystem) (env : Env) (newWatcherOk : Bool)
    (h : (startWatch fs env newWatcherOk).fatal = false) :
    Mirrors (stardewFolder fs) (startWatch fs env newWatcherOk).state.watched
      (fun p => lastFrom p none (startWatch fs env newWatcherOk).calls) := by
  obtain ⟨saves, _, _, hf, heq⟩ := startWatch_ok fs env newWatcherOk h
  obtain ⟨h1, _, _, h4, _⟩ := registerSaves_spec env saves _ hf
  rw [heq]
  have hw : ∀ p, (registerSaves env
      { watched := mapEmpty, subs := watcherAdd true [] (stardewFolder fs) } saves).state.watched p
      = if p ∈ saves then some true else none := fun p => h1 p
  refine ⟨?_, ?_, ?_⟩
  · intro p
    show _ = none ∨ _ = some true
    rw [hw p]
    by_cases hp : p ∈ saves <;> simp [hp]
  · intro p hwp
    show lastFrom p none _ = some true
    rw [lastFrom_add, h4]
    have hwp2 := hwp
    change (registerSaves env _ saves).state.watched p = some true at hwp2
    rw [hw p] at hwp2
    by_cases hp : p ∈ saves
    · simp [hp]
    · simp [hp] at hwp2
  · intro p hr hl
    have hr2 : ¬ stardewFolder fs = p := fun h => hr h.symm
    change lastFrom p none _ = some true at hl
    rw [lastFrom_add, h4] at hl
    show (registerSaves env _ saves).state.watched p = some true
    rw [hw p]
    by_cases hp : p ∈ saves
    · simp [hp]
    · simp [hp, hr2] at hl

/-- C7 as stated fails in two reachable states: right after start-up the root
is subscribed without being a key of `watched`, and after a Create event whose
watcher.Add fails the path is bound to true in `watched` without being
subscribed. -/
theorem registered_iff_subscribed_fails :
    (watchAndPublish noFarm envOk true []).fatal = false ∧
    ¬ RegisteredIffSubscribed (watchAndPublish noFarm envOk true []).state ∧
    (watchAndPublish noFarm envOk true [(envAddFails, ⟨"Saves/Farm_2", Create⟩)]).fatal = false ∧
    ¬ RegisteredIffSubscribed
      (watchAndPublish noFarm envOk true [(envAddFails, ⟨"Saves/Farm_2", Create⟩)]).state := by
  refine ⟨by decide, ?_, by decide, ?_⟩
  · intro h
    exact absurd ((h "Saves").mpr (by decide)) (by decide)
  · intro h
    exact absurd ((h "Saves/Farm_2").mp (by decide)) (by decide)

/-- C7 amended: in every state that `watchAndPublish` reaches after a start-up
that got through, by any sequence of events (also ones whose watcher.Add
fails), every key of `watched` is bound to true, every path bound to true is
one on which the latest watcher call of the program is a watcher.Add, and
every path other than the watch root on which the latest watcher call is a
watcher.Add is bound to true; so for every path other than the root, being
registered in `watched` and having been added to the watcher and not removed
since coincide.  Whether the subscription is live is not part of it. -/
theorem watched_mirrors_watcher_calls (fs : FileSystem) (env : Env) (newWatcherOk : Bool)
    (evs : List (Env × Event))
    (hstart : (startWatch fs env newWatcherOk).fatal = false) :
    Mirrors (stardewFolder fs) (watchAndPublish fs env newWatcherOk evs).state.watched
      (fun p => lastWatcherCall p (watchAndPublish fs env newWatcherOk evs).calls) ∧
    ∀ p, p ≠ stardewFolder fs →
      ((watchAndPublish fs env newWatcherOk evs).state.watched p = some true
        ↔ lastWatcherCall p (watchAndPublish fs env newWatcherOk evs).calls = some true) := by
  have hc : Mirrors (stardewFolder fs) (watchAndPublish fs env newWatcherOk evs).state.watched
      (fun p => lastWatcherCall p (watchAndPublish fs env newWatcherOk evs).calls) := by
    unfold watchAndPublish lastWatcherCall
    simp only [hstart, Bool.false_eq_true, if_false, lastFrom_append]
    exact run_mirrors _ evs _ _ (startWatch_mirrors fs env newWatcherOk hstart)
  exact ⟨hc, fun p hp => ⟨hc.2.1 p, fun hm => hc.2.2 p hp hm⟩⟩

/-- Witness of C7 amended: a new save directory appears although the watcher
refuses it, a file is written in it and removed again. -/
theorem watched_mirrors_watcher_calls_witness :
    Mirrors (stardewFolder oneFarm)
      (watchAndPublish oneFarm envOk true
        [(envAddFails, ⟨"Saves/Farm_2", Create⟩), (envOk, ⟨"Saves/Farm_2/SaveGameInfo", Write⟩),
         (envOk, ⟨"Saves/Farm_2/SaveGameInfo", Remove⟩)]).state.watched
      (fun p => lastWatcherCall p (watchAndPublish oneFarm envOk true
        [(envAddFails, ⟨"Saves/Farm_2", Create⟩), (envOk, ⟨"Saves/Farm_2/SaveGameInfo", Write⟩),
         (envOk, ⟨"Saves/Farm_2/SaveGameInfo", Remove⟩)]).calls) ∧
    ((watchAndPublish oneFarm envOk true
        [(envAddFails, ⟨"Saves/Farm_2", Create⟩), (envOk, ⟨"Saves/Farm_2/SaveGameInfo", Write⟩),
         (envOk, ⟨"Saves/Farm_2/SaveGameInfo", Remove⟩)]).state.watched
          "Saves/Farm_2/SaveGameInfo" = some true
      ↔ lastWatcherCall "Saves/Farm_2/SaveGameInfo" (watchAndPublish oneFarm envOk true
        [(envAddFails, ⟨"Saves/Farm_2", Create⟩), (envOk, ⟨"Saves/Farm_2/SaveGameInfo", Write⟩),
         (envOk, ⟨"Saves/Farm_2/SaveGameInfo", Remove⟩)]).calls = some true) :=
  ⟨(watched_mirrors_watcher_calls oneFarm envOk true _ (by decide)).1,
   (watched_mirrors_watcher_calls oneFarm envOk true _ (by decide)).2
     "Saves/Farm_2/SaveGameInfo" (by decide)⟩

/-! ## Registration happens once -/

theorem publishIfModified_no_add (env : Env) (e : Event) (q : String) :
    Call.watcherAdd q ∉ (publishIfModified env e).1 := by
  unfold publishIfModified
  simp only [logRelVerbose_eq]
  split
  · cases classify env e.Name <;> simp <;> split <;> simp [verbose]
  · simp

theorem filter_isAdd_eq_nil (calls : List Call) (h : ∀ q, Call.watcherAdd q ∉ calls) :
    calls.filter Call.isAdd = [] := by
  rw [List.filter_eq_nil_iff]
  intro c hc
  cases c <;> simp [Call.isAdd]
  exact h _ hc

theorem handleEvent_registered (env : Env) (s : State) (e : Event)
    (hreg : mapGet s.watched e.Name = true) (hop : e.Op &&& Remove ≠ Remove) :
    (handleEvent env s e).state = s ∧ ∀ q, Call.watcherAdd q ∉ (handleEvent env s e).calls := by
  have hu : updateWatchSet env s e = { state := s, calls := [], fatal := false } := by
    simp [updateWatchSet, hop, hreg]
  refine ⟨by rw [handleEvent_state, hu], ?_⟩
  intro q
  rw [handleEvent_eq, hu]
  simpa using publishIfModified_no_add env e q

theorem handleEvent_keeps_registered (env : Env) (s : State) (e : Event) (p : String)
    (hreg : mapGet s.watched p = true) (hop : e.Op &&& Remove ≠ Remove) :
    Call.watcherAdd p ∉ (handleEvent env s e).calls ∧
    mapGet (handleEvent env s e).state.watched p = true := by
  by_cases hp : e.Name = p
  · subst hp
    obtain ⟨h1, h2⟩ := handleEvent_registered env s e hreg hop
    exact ⟨h2 _, by rw [h1]; exact hreg⟩
  · have hp2 : ¬ p = e.Name := fun h => hp h.symm
    constructor
    · intro hmem
      rcases handleEvent_calls_subset env s e _ hmem with h1 | h1
      · unfold updateWatchSet at h1
        simp only [hop, if_false, logRel] at h1
        split at h1
        · cases hrel : relPath env e.Name <;> simp [hrel, hp2] at h1
        · simp at h1
      · exact publishIfModified_no_add env e p h1
    · rw [handleEvent_state]
      unfold updateWatchSet
      simp only [hop, if_false]
      split
      · simpa [mapGet, mapSet, hp2] using hreg
      · exact hreg

theorem run_keeps_registered (evs : List (Env × Event)) (s : State) (p : String)
    (hreg : mapGet s.watched p = true) (hops : ∀ x ∈ evs, x.2.Op &&& Remove ≠ Remove) :
    (run s evs).calls.count (Call.watcherAdd p) = 0 ∧
    mapGet (run s evs).state.watched p = true := by
  induction evs generalizing s with
  | nil => simpa [run] using hreg
  | cons x rest ih =>
    obtain ⟨h1, h2⟩ := handleEvent_keeps_registered x.1 s x.2 p hreg
      (hops x (List.mem_cons_self _ _))
    obtain ⟨h3, h4⟩ := ih (handleEvent x.1 s x.2).state h2
      (fun y hy => hops y (List.mem_cons_of_mem _ hy))
    simp only [run]
    split
    · exact ⟨List.count_eq_zero.mpr h1, h2⟩
    · exact ⟨by simp [List.count_append, List.count_eq_zero.mpr h1, h3], h4⟩

theorem startWatch_count (fs : FileSystem) (env : Env) (newWatcherOk : Bool) (p : String)
    (saves : List String)
    (h : (startWatch fs env newWatcherOk).fatal = false)
    (hl : allSaveGameInfos fs = some saves) :
    (startWatch fs env newWatcherOk).calls.count (Call.watcherAdd p)
      = saves.count p + (if p = stardewFolder fs then 1 else 0) ∧
    (p ∈ saves → mapGet (startWatch fs env newWatcherOk).state.watched p = true) := by
  obtain ⟨saves2, hl2, _, hf, heq⟩ := startWatch_ok fs env newWatcherOk h
  rw [hl] at hl2
  have hs : saves2 = saves := (Option.some.inj hl2).symm
  subst hs
  obtain ⟨h1, _, _, _, h5⟩ := registerSaves_spec env saves2 _ hf
  rw [heq]
  constructor
  · by_cases hp : p = stardewFolder fs
    · subst hp
      simp [List.count_cons, h5]
    · have hp2 : ¬ stardewFolder fs = p := fun h => hp h.symm
      simp [List.count_cons, h5, hp, hp2]
  · intro hp
    simp [mapGet, h1 p, hp]

/-- C6: (1) a step on an event without the Remove bit whose path is already
registered makes no watcher.Add call and leaves `watched` and the
subscriptions as they were; (2) while a path is registered, over any sequence
of events without the Remove bit the loop never calls watcher.Add on it and it
stays registered; (3) so in a cycle whose start-up listing holds the path,
followed by any such events, watcher.Add is called on it as often as start-up
does: once for each time the listing holds it, and once more if it is the
root; (4) hence exactly once when the listing holds it once and it is not the
root. -/
theorem register_idempotent :
    (∀ (env : Env) (s : State) (e : Event),
      mapGet s.watched e.Name = true → e.Op &&& Remove ≠ Remove →
      (handleEvent env s e).state = s ∧ (handleEvent env s e).calls.filter Call.isAdd = []) ∧
    (∀ (s : State) (p : String) (evs : List (Env × Event)),
      mapGet s.watched p = true → (∀ x ∈ evs, x.2.Op &&& Remove ≠ Remove) →
      (run s evs).calls.count (Call.watcherAdd p) = 0 ∧
      mapGet (run s evs).state.watched p = true) ∧
    (∀ (fs : FileSystem) (env : Env) (newWatcherOk : Bool) (evs : List (Env × Event))
      (p : String) (saves : List String),
      (startWatch fs env newWatcherOk).fatal = false →
      allSaveGameInfos fs = some saves → p ∈ saves →
      (∀ x ∈ evs, x.2.Op &&& Remove ≠ Remove) →
      (watchAndPublish fs env newWatcherOk evs).calls.count (Call.watcherAdd p)
        = saves.count p + (if p = stardewFolder fs then 1 else 0)) ∧
    (∀ (fs : FileSystem) (env : Env) (newWatcherOk : Bool) (evs : List (Env × Event))
      (p : String) (saves : List String),
      (startWatch fs env newWatcherOk).fatal = false →
      allSaveGameInfos fs = some saves → saves.count p = 1 → p ≠ stardewFolder fs →
      (∀ x ∈ evs, x.2.Op &&& Remove ≠ Remove) →
      (watchAndPublish fs env newWatcherOk evs).calls.count (Call.watcherAdd p) = 1) := by
  have h3 : ∀ (fs : FileSystem) (env : Env) (newWatcherOk : Bool) (evs : List (Env × Event))
      (p : String) (saves : List String),
      (startWatch fs env newWatcherOk).fatal = false →
      allSaveGameInfos fs = some saves → p ∈ saves →
      (∀ x ∈ evs, x.2.Op &&& Remove ≠ Remove) →
      (watchAndPublish fs env newWatcherOk evs).calls.count (Call.watcherAdd p)
        = saves.count p + (if p = stardewFolder fs then 1 else 0) := by
    intro fs env newWatcherOk evs p saves hstart hl hmem hops
    obtain ⟨hcount, hreg⟩ := startWatch_count fs env newWatcherOk p saves hstart hl
    have hrun := (run_keeps_registered evs _ p (hreg hmem) hops).1
    unfold watchAndPublish
    simp only [hstart, Bool.false_eq_true, if_false, List.count_append, hrun, hcount,
      Nat.add_zero]
  refine ⟨?_, ?_, h3, ?_⟩
  · intro env s e hreg hop
    obtain ⟨h1, h2⟩ := handleEvent_registered env s e hreg hop
    exact ⟨h1, filter_isAdd_eq_nil _ h2⟩
  · intro s p evs hreg hops
    exact run_keeps_registered evs s p hreg hops
  · intro fs env newWatcherOk evs p saves hstart hl hp hne hops
    have hmem : p ∈ saves := by
      apply List.count_pos_iff.mp
      omega
    rw [h3 fs env newWatcherOk evs p saves hstart hl hmem hops, hp, if_neg hne]

/-- Witness of C6: a late Create and a Write on a file registered at start-up. -/
theorem register_idempotent_witness :
    (handleEvent envOk (startWatch oneFarm envOk true).state
        ⟨"Saves/Farm_1/SaveGameInfo", Create⟩).calls.filter Call.isAdd = [] ∧
    (run (startWatch oneFarm envOk true).state
        [(envOk, ⟨"Saves/Farm_1/SaveGameInfo", Create⟩),
         (envOk, ⟨"Saves/Farm_1/SaveGameInfo", Write⟩)]).calls.count
      (Call.watcherAdd "Saves/Farm_1/SaveGameInfo") = 0 ∧
    (watchAndPublish oneFarm envOk true
        [(envOk, ⟨"Saves/Farm_1/SaveGameInfo", Create⟩),
         (envOk, ⟨"Saves/Farm_1/SaveGameInfo", Write⟩)]).calls.count
      (Call.watcherAdd "Saves/Farm_1/SaveGameInfo") = 1 :=
  ⟨(register_idempotent.1 envOk (startWatch oneFarm envOk true).state
      ⟨"Saves/Farm_1/SaveGameInfo", Create⟩ (by decide) (by decide)).2,
   (register_idempotent.2.1 (startWatch oneFarm envOk true).state "Saves/Farm_1/SaveGameInfo"
      _ (by decide) (by decide)).1,
   register_idempotent.2.2.2 oneFarm envOk true _ "Saves/Farm_1/SaveGameInfo"
      ["Saves/Farm_1/Farm_1", "Saves/Farm_1/SaveGameInfo"]
      (by decide) (by decide) (by decide) (by decide) (by decide)⟩

end StardewRocks
